import Mathlib

/-!
Verification development for the xk6-disruptor agent controller
(`pkg/disruptors/controller.go`).

The Go controller fans out one goroutine per target pod, both for ephemeral
container injection and for command execution, collecting errors on a buffered
channel sized to the number of targets, and returns the first error received
(or nil).  Each goroutine performs exactly one remote call and one channel
send, so the observable outcome of a run (the multiset of remote calls and
the set of channel messages) is captured by the sequentialisation below,
which processes the targets in list order: traces are accumulated in target
order, and the returned error is the head of the error list (the "first error
observed" of the Go code, fixed to target order by the serialisation).

Time durations (`time.Duration`) are modelled as `Int` nanoseconds.
-/

/-- Capability list of a Kubernetes security context (`corev1.Capabilities`). -/
structure Capabilities where
  add : List String
deriving DecidableEq

/-- Security context of the injected container (`corev1.SecurityContext`). -/
structure SecurityContext where
  capabilities : Capabilities
  runAsUser : Int
  runAsGroup : Int
  runAsNonRoot : Bool
deriving DecidableEq

/-- The fields of `corev1.EphemeralContainer` that `InjectDisruptorAgent` sets. -/
structure EphemeralContainer where
  name : String
  image : String
  imagePullPolicy : String
  securityContext : SecurityContext
  tty : Bool
  stdin : Bool
deriving DecidableEq

/-- The container spec built at the top of `agentController.InjectDisruptorAgent`:
name `xk6-agent`, the configured agent image, pull-if-not-present, a security
context adding `NET_ADMIN` and running as root (user 0, group 0, non-root
false), TTY and stdin enabled.  `agentImage` stands for `consts.AgentImage()`:
the constant lives outside the sources under verification, so the configured
image is passed as a parameter. -/
def agentContainer (agentImage : String) : EphemeralContainer :=
  { name := "xk6-agent"
  , image := agentImage
  , imagePullPolicy := "IfNotPresent"
  , securityContext :=
      { capabilities := { add := ["NET_ADMIN"] }
      , runAsUser := 0
      , runAsGroup := 0
      , runAsNonRoot := false }
  , tty := true
  , stdin := true }

/-- Options of an attach call (`helpers.AttachOptions`): readiness timeout and the ignore-if-exists flag. -/
structure AttachOptions where
  timeout : Int
  ignoreIfExists : Bool
deriving DecidableEq

/-- One call to `PodHelper.AttachEphemeralContainer`, as observed by the helper. -/
structure AttachCall where
  pod : String
  container : EphemeralContainer
  options : AttachOptions
deriving DecidableEq

/-- Result of `PodHelper.Exec`: captured stdout, captured stderr, and the
error (`none` on success).  Byte slices are modelled as strings, matching the
`string(stderr)` conversion in the Go code. -/
structure ExecResult where
  stdout : String
  stderr : String
  err : Option String
deriving DecidableEq

/-- One remote command execution, as observed by the helper:
pod, container, command, stdin. -/
structure Command where
  pod : String
  container : String
  command : List String
  stdin : String
deriving DecidableEq

/-- Oracle for `PodHelper.AttachEphemeralContainer`: pod, container spec and
options to an optional error. -/
def AttachFn := String → EphemeralContainer → AttachOptions → Option String

/-- Oracle for `PodHelper.Exec`: pod, container, command and stdin to the
captured streams and error. -/
def ExecFn := String → String → List String → String → ExecResult

/-- The `agentController` struct: bound helper (its two operations), namespace,
target pod names, and the normalised timeout. -/
structure AgentController where
  helperAttach : AttachFn
  helperExec : ExecFn
  ns : String
  targets : List String
  timeout : Int

/-- Constructor `NewAgentController`: stores the configuration after normalising the
timeout (`timeout == 0` becomes 30 seconds, then a negative timeout becomes
0), exactly in the order of the two `if` statements of the Go code. -/
def NewAgentController (attach : AttachFn) (ex : ExecFn) (ns : String)
    (targets : List String) (timeout : Int) : AgentController :=
  let timeout1 := if timeout = 0 then 30 * 1000000000 else timeout
  let timeout2 := if timeout1 < 0 then 0 else timeout1
  { helperAttach := attach
  , helperExec := ex
  , ns := ns
  , targets := targets
  , timeout := timeout2 }

/-- The fan-out loop of `InjectDisruptorAgent`, serialised in target order:
for each pod, one `AttachEphemeralContainer` call with the agent container,
the controller timeout and `IgnoreIfExists: true`; a failed call appends its
error to the channel contents.  Returns the attach-call trace and the error
list. -/
def injectLoop (attach : AttachFn) (ct : EphemeralContainer) (timeout : Int) :
    List String → List AttachCall × List String
  | [] => ([], [])
  | pod :: rest =>
      let opts : AttachOptions := { timeout := timeout, ignoreIfExists := true }
      let r := attach pod ct opts
      let tail := injectLoop attach ct timeout rest
      (⟨pod, ct, opts⟩ :: tail.1,
       (match r with | some e => [e] | none => []) ++ tail.2)

/-- Observable part of `InjectDisruptorAgent`: the attach trace and the error
channel contents. -/
def injectRun (c : AgentController) (agentImage : String) :
    List AttachCall × List String :=
  injectLoop c.helperAttach (agentContainer agentImage) c.timeout c.targets

/-- Return value of `InjectDisruptorAgent`: after the join barrier, the first
error received on the channel, or `none` when the channel is empty. -/
def InjectDisruptorAgent (c : AgentController) (agentImage : String) :
    Option String :=
  (injectRun c agentImage).2.head?

/-- The error wrapping of `Visit`:
`fmt.Errorf("error invoking agent: %w \n%s", err, string(stderr))`.
The grouping puts the captured stderr as the final segment of the message,
as in the format string. -/
def enrich (e : String) (stderr : String) : String :=
  ("error invoking agent: " ++ e ++ " \n") ++ stderr

/-- The fan-out loop of `Visit`, serialised in target order: for each pod, the
visitor is asked for the command, then one `Exec` call on container
`xk6-agent` with empty stdin; a failed call appends the enriched error to the
channel contents.  Returns the execution trace and the error list. -/
def visitLoop (ex : ExecFn) (visitor : String → List String) :
    List String → List Command × List String
  | [] => ([], [])
  | pod :: rest =>
      let cmd := visitor pod
      let r := ex pod "xk6-agent" cmd ""
      let tail := visitLoop ex visitor rest
      (⟨pod, "xk6-agent", cmd, ""⟩ :: tail.1,
       (match r.err with | some e => [enrich e r.stderr] | none => []) ++ tail.2)

/-- Observable part of `Visit`: the execution trace and the error channel
contents. -/
def visitRun (c : AgentController) (visitor : String → List String) :
    List Command × List String :=
  visitLoop c.helperExec visitor c.targets

/-- Return value of `Visit`: the first error received on the channel, or
`none` when the channel is empty. -/
def Visit (c : AgentController) (visitor : String → List String) :
    Option String :=
  (visitRun c visitor).2.head?

/-- Method `ExecCommand`: `Visit` with the constant visitor returning `cmd`. -/
def ExecCommand (c : AgentController) (cmd : List String) : Option String :=
  Visit c (fun _ => cmd)

/-- Method `Targets`: `return c.targets, nil`. -/
def Targets (c : AgentController) : List String × Option String :=
  (c.targets, none)

/-- Attach oracle for the C3 witness: fails on pod `bad` only. -/
def attachOneBad : AttachFn :=
  fun p _ _ => if p = "bad" then some "boom" else none

/-- Controller for the C3 witness: two targets, one failing attach. -/
def controllerOneBad : AgentController :=
  NewAgentController attachOneBad (fun _ _ _ _ => ⟨"", "", none⟩)
    "test-ns" ["good", "bad"] (-1)

/-- Exec oracle for the C7 witness: every execution fails with stderr
`error output`. -/
def execAlwaysFails : ExecFn :=
  fun _ _ _ _ => ⟨"", "error output", some "fake error"⟩

/-- Controller for the C7 witness: one target, failing executor. -/
def controllerExecFails : AgentController :=
  NewAgentController (fun _ _ _ => none) execAlwaysFails "test-ns" ["pod1"] 0

/-- The `{Exec, Cleanup}` command pair of the specification's visitor. -/
structure VisitCommands where
  exec : List String
  cleanup : List String
deriving DecidableEq

/-- Modelled from the spec: the cleanup-aware visit loop of §4.3 — the
repository's cleanup-capable `Visit` is not among the sources under
verification (only its spec and tests are), so it is modelled here from the
spec's words: for every target run the `Exec` command; if it fails, run the
`Cleanup` command against the same target (no cleanup is issued for an empty
cleanup command, the spec's "no compensating cleanup") and record the
original error enriched with the captured stderr; on success no cleanup is
issued. -/
def visitSpecLoop (ex : ExecFn) (visitor : String → VisitCommands) :
    List String → List Command × List String
  | [] => ([], [])
  | pod :: rest =>
      let vc := visitor pod
      let r := ex pod "xk6-agent" vc.exec ""
      let tail := visitSpecLoop ex visitor rest
      match r.err with
      | none => (⟨pod, "xk6-agent", vc.exec, ""⟩ :: tail.1, tail.2)
      | some e =>
          ((⟨pod, "xk6-agent", vc.exec, ""⟩ ::
              (if vc.cleanup = [] then []
               else [⟨pod, "xk6-agent", vc.cleanup, ""⟩])) ++ tail.1,
           enrich e r.stderr :: tail.2)

/-- Exec oracle for the C1 evidence: every execution fails with stderr
`error output` and error `fake error`. -/
def execFailsForCleanup : ExecFn :=
  fun _ _ _ _ => ⟨"", "error output", some "fake error"⟩

/-- Controller for the C1 evidence: two targets, failing executor. -/
def controllerCleanupCase : AgentController :=
  NewAgentController (fun _ _ _ => none) execFailsForCleanup "test-ns"
    ["pod1", "pod2"] (-1)

/-- Exec oracle for the C2 evidence: every execution succeeds. -/
def execAlwaysOk : ExecFn := fun _ _ _ _ => ⟨"", "", none⟩

/-- Controller for the C2 evidence: two targets, succeeding executor. -/
def controllerExecOk : AgentController :=
  NewAgentController (fun _ _ _ => none) execAlwaysOk "test-ns"
    ["pod1", "pod2"] 0

/-- Modelled from the spec: `PodHelper.AttachEphemeralContainer` (the helper
lives outside the sources under verification).  The cluster state is the set
of (pod, container name) pairs already attached; attaching an existing
container is a no-op success when `IgnoreIfExists` is set, an error
otherwise; attaching a new container records it and succeeds. -/
def modelAttach (s : List (String × String)) (pod : String)
    (ct : EphemeralContainer) (opts : AttachOptions) :
    List (String × String) × Option String :=
  if (pod, ct.name) ∈ s then
    if opts.ignoreIfExists then (s, none)
    else (s, some "ephemeral container already exists")
  else ((pod, ct.name) :: s, none)

/-- The `InjectDisruptorAgent` loop run against the spec-modelled helper,
threading the cluster state through the attach calls (options are the
source's: the controller timeout and `IgnoreIfExists: true`). -/
def injectStateLoop (timeout : Int) (image : String) :
    List (String × String) → List String →
      List (String × String) × List String
  | s, [] => (s, [])
  | s, pod :: rest =>
      let r := modelAttach s pod (agentContainer image) ⟨timeout, true⟩
      let next := injectStateLoop timeout image r.1 rest
      (next.1, (match r.2 with | some e => [e] | none => []) ++ next.2)

/-- Events of the main goroutine of `Visit`: a visitor invocation or the
launch of a target's execution task. -/
inductive VisitEvent
  | visitorCall : String → VisitEvent
  | spawnTask : String → List String → VisitEvent
deriving DecidableEq

/-- The main-goroutine trace of the `Visit` loop: visitor invocations and
task launches all happen sequentially on the calling goroutine, in target
order (`cmd := visitor(pod)` then `go func...` per loop iteration), so
visitor invocations are never concurrent. -/
def visitMainTrace (visitor : String → List String) :
    List String → List VisitEvent
  | [] => []
  | pod :: rest =>
      VisitEvent.visitorCall pod ::
        VisitEvent.spawnTask pod (visitor pod) ::
          visitMainTrace visitor rest

/-- The pods on which the visitor is invoked, in trace order. -/
def visitorCalls : List VisitEvent → List String
  | [] => []
  | VisitEvent.visitorCall p :: rest => p :: visitorCalls rest
  | VisitEvent.spawnTask _ _ :: rest => visitorCalls rest

/-- The attach trace of the injection loop: one call per target, in order,
always with the given container and with options
`{Timeout: timeout, IgnoreIfExists: true}`. -/
theorem injectLoop_trace (attach : AttachFn) (ct : EphemeralContainer)
    (timeout : Int) (ts : List String) :
    (injectLoop attach ct timeout ts).1 =
      ts.map (fun p => ⟨p, ct, ⟨timeout, true⟩⟩) := by
  induction ts with
  | nil => rfl
  | cons pod rest ih => simp [injectLoop, ih]

/-- The injection loop's error list is empty exactly when every attach call
succeeds. -/
theorem injectLoop_errs_nil_iff (attach : AttachFn) (ct : EphemeralContainer)
    (timeout : Int) (ts : List String) :
    (injectLoop attach ct timeout ts).2 = [] ↔
      ∀ p ∈ ts, attach p ct ⟨timeout, true⟩ = none := by
  induction ts with
  | nil => simp [injectLoop]
  | cons pod rest ih =>
      simp only [injectLoop, List.mem_cons]
      cases h : attach pod ct ⟨timeout, true⟩ with
      | some e =>
          simp only [List.append_eq_nil, List.cons_ne_nil, false_and, false_iff]
          intro hall
          exact absurd (hall pod (Or.inl rfl)) (by simp [h])
      | none =>
          simp only [List.nil_append, ih]
          constructor
          · intro hall p hp
            cases hp with
            | inl hl => exact hl ▸ h
            | inr hr => exact hall p hr
          · intro hall p hp
            exact hall p (Or.inr hp)

/-- Every error produced by the injection loop is the error of some target's
attach call. -/
theorem injectLoop_errs_mem (attach : AttachFn) (ct : EphemeralContainer)
    (timeout : Int) (ts : List String) (e : String)
    (he : e ∈ (injectLoop attach ct timeout ts).2) :
    ∃ p ∈ ts, attach p ct ⟨timeout, true⟩ = some e := by
  induction ts with
  | nil => simp [injectLoop] at he
  | cons pod rest ih =>
      simp only [injectLoop, List.mem_append] at he
      cases he with
      | inl hl =>
          refine ⟨pod, List.mem_cons_self _ _, ?_⟩
          cases h : attach pod ct ⟨timeout, true⟩ with
          | some e0 => simp [h] at hl; simp [hl]
          | none => simp [h] at hl
      | inr hr =>
          obtain ⟨p, hp, hpe⟩ := ih hr
          exact ⟨p, List.mem_cons_of_mem _ hp, hpe⟩

/-- The execution trace of the visit loop: one `Exec` per target, in order,
on container `xk6-agent`, running the visitor's command with empty stdin. -/
theorem visitLoop_trace (ex : ExecFn) (visitor : String → List String)
    (ts : List String) :
    (visitLoop ex visitor ts).1 =
      ts.map (fun p => ⟨p, "xk6-agent", visitor p, ""⟩) := by
  induction ts with
  | nil => rfl
  | cons pod rest ih => simp [visitLoop, ih]

/-- Every error produced by the visit loop is the enriched error of some
target whose execution failed: the original error wrapped together with that
execution's captured stderr. -/
theorem visitLoop_errs_mem (ex : ExecFn) (visitor : String → List String)
    (ts : List String) (m : String)
    (hm : m ∈ (visitLoop ex visitor ts).2) :
    ∃ p ∈ ts, ∃ e,
      (ex p "xk6-agent" (visitor p) "").err = some e ∧
      m = enrich e (ex p "xk6-agent" (visitor p) "").stderr := by
  induction ts with
  | nil => simp [visitLoop] at hm
  | cons pod rest ih =>
      simp only [visitLoop, List.mem_append] at hm
      cases hm with
      | inl hl =>
          refine ⟨pod, List.mem_cons_self _ _, ?_⟩
          cases h : (ex pod "xk6-agent" (visitor pod) "").err with
          | some e0 =>
              simp [h] at hl
              exact ⟨e0, rfl, hl⟩
          | none => simp [h] at hl
      | inr hr =>
          obtain ⟨p, hp, he⟩ := ih hr
          exact ⟨p, List.mem_cons_of_mem _ hp, he⟩

/-- A list has head `none` exactly when it is empty. -/
theorem head?_none_iff {α : Type} (l : List α) : l.head? = none ↔ l = [] := by
  cases l <;> simp

/-- The head of a list is a member of it. -/
theorem head?_some_mem {α : Type} (l : List α) (a : α)
    (h : l.head? = some a) : a ∈ l := by
  cases l with
  | nil => simp at h
  | cons x xs => simp at h; simp [h]

/-- C3: `InjectDisruptorAgent` attempts the attach operation on every target
regardless of sibling failures (one attach call per target, in order), returns
`none` if and only if every attach succeeded, and when it returns an error
that error is one actually observed from some target's attach call — no
failure is suppressed entirely. -/
theorem inject_attempts_all_returns_error_iff
    (c : AgentController) (image : String) :
    (injectRun c image).1.map (fun a => a.pod) = c.targets ∧
    (InjectDisruptorAgent c image = none ↔
      ∀ p ∈ c.targets,
        c.helperAttach p (agentContainer image) ⟨c.timeout, true⟩ = none) ∧
    (∀ e, InjectDisruptorAgent c image = some e →
      ∃ p ∈ c.targets,
        c.helperAttach p (agentContainer image) ⟨c.timeout, true⟩ = some e) := by
  refine ⟨?_, ?_, ?_⟩
  · rw [injectRun, injectLoop_trace, List.map_map]
    exact List.map_id _
  · rw [InjectDisruptorAgent, head?_none_iff]
    exact injectLoop_errs_nil_iff c.helperAttach (agentContainer image)
      c.timeout c.targets
  · intro e he
    exact injectLoop_errs_mem c.helperAttach (agentContainer image)
      c.timeout c.targets e (head?_some_mem _ _ he)

/-- Witness for C3 at a concrete controller where one of two attaches fails:
the returned error is the one observed on the failing target. -/
theorem inject_attempts_all_returns_error_iff_witness :
    ∃ p ∈ controllerOneBad.targets,
      controllerOneBad.helperAttach p (agentContainer "img")
        ⟨controllerOneBad.timeout, true⟩ = some "boom" :=
  (inject_attempts_all_returns_error_iff controllerOneBad "img").2.2 "boom"
    (by decide)

/-- C4: `NewAgentController` normalises the timeout argument: 0 becomes the
default of 30 seconds (30000000000 nanoseconds), a negative timeout becomes
exactly 0, and a positive timeout is stored verbatim. -/
theorem newAgentController_timeout_normalisation
    (attach : AttachFn) (ex : ExecFn) (ns : String) (ts : List String)
    (t : Int) :
    (NewAgentController attach ex ns ts 0).timeout = 30 * 1000000000 ∧
    (t < 0 → (NewAgentController attach ex ns ts t).timeout = 0) ∧
    (0 < t → (NewAgentController attach ex ns ts t).timeout = t) := by
  refine ⟨rfl, ?_, ?_⟩ <;>
    · intro ht
      simp only [NewAgentController]
      split_ifs <;> omega

/-- Witness for C4 at the concrete timeouts -5 and 7. -/
theorem newAgentController_timeout_normalisation_witness :
    ((-5 : Int) < 0 ∧
      (NewAgentController (fun _ _ _ => none) (fun _ _ _ _ => ⟨"", "", none⟩)
        "ns" [] (-5)).timeout = 0) ∧
    ((0 : Int) < 7 ∧
      (NewAgentController (fun _ _ _ => none) (fun _ _ _ _ => ⟨"", "", none⟩)
        "ns" [] 7).timeout = 7) :=
  ⟨⟨by decide,
    (newAgentController_timeout_normalisation (fun _ _ _ => none)
      (fun _ _ _ _ => ⟨"", "", none⟩) "ns" [] (-5)).2.1 (by decide)⟩,
   ⟨by decide,
    (newAgentController_timeout_normalisation (fun _ _ _ => none)
      (fun _ _ _ _ => ⟨"", "", none⟩) "ns" [] 7).2.2 (by decide)⟩⟩

/-- C8: the ephemeral container attached by `InjectDisruptorAgent` has the
fixed agent name `xk6-agent`, the configured agent image, a security context
adding the `NET_ADMIN` capability and running as root (user 0, group 0,
run-as-non-root false), TTY and stdin enabled; and every attach call of an
injection run carries exactly this container. -/
theorem inject_container_spec (image : String) (c : AgentController) :
    (agentContainer image).name = "xk6-agent" ∧
    (agentContainer image).image = image ∧
    (agentContainer image).securityContext.capabilities.add = ["NET_ADMIN"] ∧
    (agentContainer image).securityContext.runAsUser = 0 ∧
    (agentContainer image).securityContext.runAsGroup = 0 ∧
    (agentContainer image).securityContext.runAsNonRoot = false ∧
    (agentContainer image).tty = true ∧
    (agentContainer image).stdin = true ∧
    (injectRun c image).1.map (fun a => a.container) =
      c.targets.map (fun _ => agentContainer image) := by
  refine ⟨rfl, rfl, rfl, rfl, rfl, rfl, rfl, rfl, ?_⟩
  rw [injectRun, injectLoop_trace, List.map_map]
  rfl

/-- C9: `Targets` returns exactly the target list supplied at construction,
in order, with a `nil` error, and does not depend on the helper (it performs
no cluster query). -/
theorem targets_verbatim_no_query
    (c : AgentController) (attach : AttachFn) (ex : ExecFn) (ns : String)
    (ts : List String) (t : Int) :
    Targets c = (c.targets, none) ∧
    Targets (NewAgentController attach ex ns ts t) = (ts, none) ∧
    Targets { c with helperAttach := attach, helperExec := ex } = Targets c :=
  ⟨rfl, rfl, rfl⟩

/-- C7: whenever `Visit` (or `ExecCommand`, which visits with a constant
command) returns an error, that error is the enriched error of some target
whose remote execution failed, and its message contains the raw stderr
captured from that same failed execution (the stderr is a suffix segment of
the message). -/
theorem visit_error_message_contains_stderr
    (c : AgentController) (visitor : String → List String)
    (cmd : List String) (m : String) :
    (Visit c visitor = some m →
      ∃ p ∈ c.targets, ∃ e,
        (c.helperExec p "xk6-agent" (visitor p) "").err = some e ∧
        m = enrich e (c.helperExec p "xk6-agent" (visitor p) "").stderr ∧
        ∃ pre, m = pre ++ (c.helperExec p "xk6-agent" (visitor p) "").stderr) ∧
    (ExecCommand c cmd = some m →
      ∃ p ∈ c.targets, ∃ e,
        (c.helperExec p "xk6-agent" cmd "").err = some e ∧
        m = enrich e (c.helperExec p "xk6-agent" cmd "").stderr ∧
        ∃ pre, m = pre ++ (c.helperExec p "xk6-agent" cmd "").stderr) := by
  have key : ∀ v : String → List String, Visit c v = some m →
      ∃ p ∈ c.targets, ∃ e,
        (c.helperExec p "xk6-agent" (v p) "").err = some e ∧
        m = enrich e (c.helperExec p "xk6-agent" (v p) "").stderr ∧
        ∃ pre, m = pre ++ (c.helperExec p "xk6-agent" (v p) "").stderr := by
    intro v hv
    obtain ⟨p, hp, e, he, hm⟩ :=
      visitLoop_errs_mem c.helperExec v c.targets m (head?_some_mem _ _ hv)
    refine ⟨p, hp, e, he, hm, "error invoking agent: " ++ e ++ " \n", ?_⟩
    rw [hm]; rfl
  exact ⟨key visitor, key (fun _ => cmd)⟩

/-- Witness for C7 at a concrete failing execution: the returned message is
the enriched error and ends in the captured stderr `error output`. -/
theorem visit_error_message_contains_stderr_witness :
    ∃ p ∈ controllerExecFails.targets, ∃ e,
      (controllerExecFails.helperExec p "xk6-agent" ["command"] "").err =
        some e ∧
      "error invoking agent: fake error \nerror output" =
        enrich e
          (controllerExecFails.helperExec p "xk6-agent" ["command"] "").stderr ∧
      ∃ pre, "error invoking agent: fake error \nerror output" =
        pre ++
          (controllerExecFails.helperExec p "xk6-agent" ["command"] "").stderr :=
  (visit_error_message_contains_stderr controllerExecFails
    (fun _ => ["command"]) ["command"]
    "error invoking agent: fake error \nerror output").1 (by rfl)

/-- C5: `ExecCommand cmd` is `Visit` with the constant visitor returning
`cmd`, and is observationally equivalent to the spec's cleanup-aware visit
with the constant visitor `{Exec: cmd, Cleanup: []}`: same remote executions,
same error-channel contents, same returned error. -/
theorem execCommand_is_visit_with_constant_visitor
    (c : AgentController) (cmd : List String) :
    ExecCommand c cmd = Visit c (fun _ => cmd) ∧
    visitSpecLoop c.helperExec (fun _ => ⟨cmd, []⟩) c.targets =
      visitRun c (fun _ => cmd) ∧
    ExecCommand c cmd =
      (visitSpecLoop c.helperExec (fun _ => ⟨cmd, []⟩) c.targets).2.head? := by
  have key : ∀ ts, visitSpecLoop c.helperExec (fun _ => ⟨cmd, []⟩) ts =
      visitLoop c.helperExec (fun _ => cmd) ts := by
    intro ts
    induction ts with
    | nil => rfl
    | cons pod rest ih =>
        simp only [visitSpecLoop, visitLoop, ih]
        cases h : (c.helperExec pod "xk6-agent" cmd "").err <;> simp [h]
  refine ⟨rfl, key c.targets, ?_⟩
  rw [key c.targets]
  rfl

/-- C1: evidence of the code/spec divergence.  On a run where every remote
execution fails, the source's `Visit` records, per target, the original error
enriched with the captured stderr — but it executes exactly one command per
target (the visitor's command) and never issues any cleanup command: the
command `cleanup` appears nowhere in the execution trace, although the spec
and the repository's own `Test_VisitPod` require one cleanup execution per
failed target. -/
theorem visit_failure_executes_no_cleanup :
    Visit controllerCleanupCase (fun _ => ["command"]) =
      some "error invoking agent: fake error \nerror output" ∧
    (visitRun controllerCleanupCase (fun _ => ["command"])).1.map
        (fun r => r.command) = [["command"], ["command"]] ∧
    ¬ ["cleanup"] ∈ (visitRun controllerCleanupCase (fun _ => ["command"])).1.map
        (fun r => r.command) :=
  ⟨rfl, rfl, by decide⟩

/-- C2: evidence of the code/spec divergence.  The source's visitor type
(`func(string) []string`) has no failure channel, so no visitor whatsoever
can make `Visit` fail: when every remote execution succeeds, `Visit` returns
`nil` for every visitor — there is no "visitor failure counts as a target
failure" path, although the spec and the repository's own tests give the
visitor the fallible type `Visit(pod) (VisitCommands, error)`. -/
theorem visit_visitor_cannot_fail (visitor : String → List String) :
    Visit controllerExecOk visitor = none := rfl

/-- The injection loop only ever grows the cluster state. -/
theorem injectStateLoop_mem_preserved (timeout : Int) (image : String)
    (ts : List String) (s : List (String × String)) (x : String × String)
    (hx : x ∈ s) : x ∈ (injectStateLoop timeout image s ts).1 := by
  induction ts generalizing s with
  | nil => exact hx
  | cons pod rest ih =>
      simp only [injectStateLoop]
      apply ih
      unfold modelAttach
      split_ifs with h1 h2
      · exact hx
      · exact hx
      · exact List.mem_cons_of_mem _ hx

/-- After one injection run, every target has the agent container attached. -/
theorem injectStateLoop_adds (timeout : Int) (image : String)
    (ts : List String) (s : List (String × String)) (p : String)
    (hp : p ∈ ts) :
    (p, "xk6-agent") ∈ (injectStateLoop timeout image s ts).1 := by
  induction ts generalizing s with
  | nil => cases hp
  | cons pod rest ih =>
      simp only [injectStateLoop]
      cases hp with
      | head =>
          apply injectStateLoop_mem_preserved
          unfold modelAttach
          split_ifs with h1 h2
          · exact h1
          · exact h1
          · exact List.mem_cons_self _ _
      | tail _ hrest => exact ih _ hrest

/-- On a state where every target already has the agent container, the
injection run leaves the state unchanged and produces no errors. -/
theorem injectStateLoop_stable (timeout : Int) (image : String)
    (ts : List String) (s : List (String × String))
    (hall : ∀ p ∈ ts, (p, "xk6-agent") ∈ s) :
    injectStateLoop timeout image s ts = (s, []) := by
  induction ts with
  | nil => rfl
  | cons pod rest ih =>
      have hpod : (pod, "xk6-agent") ∈ s := hall pod (List.mem_cons_self _ _)
      have hattach :
          modelAttach s pod (agentContainer image) ⟨timeout, true⟩ =
            (s, none) := by
        simp [modelAttach, agentContainer, hpod]
      simp only [injectStateLoop, hattach]
      rw [ih (fun p hp => hall p (List.mem_cons_of_mem _ hp))]
      rfl

/-- C6: every attach call issued by `InjectDisruptorAgent` carries the
ignore-if-exists option, and against the spec-modelled helper injection is
idempotent: a second run from the state produced by a first run changes
nothing, records no error, and its returned error is `nil`. -/
theorem inject_ignore_if_exists_idempotent
    (c : AgentController) (image : String) (timeout : Int)
    (s : List (String × String)) (ts : List String) :
    (injectRun c image).1.map (fun a => a.options.ignoreIfExists) =
      c.targets.map (fun _ => true) ∧
    injectStateLoop timeout image
        (injectStateLoop timeout image s ts).1 ts =
      ((injectStateLoop timeout image s ts).1, []) ∧
    (injectStateLoop timeout image
        (injectStateLoop timeout image s ts).1 ts).2.head? = none := by
  have hsecond :
      injectStateLoop timeout image
          (injectStateLoop timeout image s ts).1 ts =
        ((injectStateLoop timeout image s ts).1, []) :=
    injectStateLoop_stable timeout image ts _
      (fun p hp => injectStateLoop_adds timeout image ts s p hp)
  refine ⟨?_, hsecond, ?_⟩
  · rw [injectRun, injectLoop_trace, List.map_map]
    rfl
  · rw [hsecond]
    rfl

/-- The visitor is invoked exactly once per target, in target order. -/
theorem visitorCalls_visitMainTrace (visitor : String → List String)
    (ts : List String) : visitorCalls (visitMainTrace visitor ts) = ts := by
  induction ts with
  | nil => rfl
  | cons pod rest ih => simp only [visitMainTrace, visitorCalls, ih]

/-- The trace has two events per target. -/
theorem visitMainTrace_length (visitor : String → List String)
    (ts : List String) :
    (visitMainTrace visitor ts).length = 2 * ts.length := by
  induction ts with
  | nil => rfl
  | cons pod rest ih =>
      simp only [visitMainTrace, List.length_cons, ih]
      omega

/-- Positions in the trace: target `n`'s visitor call is event `2n` and the
launch of its execution task is event `2n + 1`, immediately after. -/
theorem visitMainTrace_get? (visitor : String → List String)
    (ts : List String) (n : Nat) :
    (visitMainTrace visitor ts).get? (2 * n) =
      (ts.get? n).map VisitEvent.visitorCall ∧
    (visitMainTrace visitor ts).get? (2 * n + 1) =
      (ts.get? n).map (fun p => VisitEvent.spawnTask p (visitor p)) := by
  induction ts generalizing n with
  | nil => simp [visitMainTrace]
  | cons pod rest ih =>
      cases n with
      | zero => simp [visitMainTrace]
      | succ m =>
          have h2 : 2 * (m + 1) = 2 * m + 1 + 1 := by ring
          rw [h2]
          simp only [visitMainTrace, List.get?_cons_succ]
          exact ih m

/-- C10: `Visit` invokes the visitor exactly once per target, in the order of
the controller's target list, on the calling goroutine (hence never
concurrently), and each target's visitor invocation (event `2n`) strictly
precedes the launch of that target's execution task (event `2n + 1`). -/
theorem visit_visitor_sequential_per_target
    (visitor : String → List String) (ts : List String) (n : Nat) :
    visitorCalls (visitMainTrace visitor ts) = ts ∧
    (visitMainTrace visitor ts).length = 2 * ts.length ∧
    (visitMainTrace visitor ts).get? (2 * n) =
      (ts.get? n).map VisitEvent.visitorCall ∧
    (visitMainTrace visitor ts).get? (2 * n + 1) =
      (ts.get? n).map (fun p => VisitEvent.spawnTask p (visitor p)) :=
  ⟨visitorCalls_visitMainTrace visitor ts,
   visitMainTrace_length visitor ts,
   (visitMainTrace_get? visitor ts n).1,
   (visitMainTrace_get? visitor ts n).2⟩
